import Mathlib

/-!
Shallow embedding of the TMDB harvester engine shared by
`build_top200_dataset.py` and `Training/topup_tmdb_dataset.py`:
the two-threshold ROI classifier, the HTTP retry loop, the
per-entity harvest step with its seen-set, the per-year sort-order
enumeration, the balanced sampler and the CSV checkpoint writer.
Rational numbers stand for the Python floats (every value involved is a
ratio of integers, and the thresholds 1.5/0.8 resp. 2.0/0.9 are exact
decimals), integers for the budget/revenue fields.  Network calls are
oracles passed in as functions; `random.shuffle` is an arbitrary
permutation-producing function passed in as a parameter.
-/

namespace Harvester

/-- Class label of a harvested record (`classify_roi` returns
`"positive"`, `"negative"` or `None`; `None` is `Option.none` here). -/
inductive Label where
  | positive
  | negative
deriving DecidableEq, Repr

/-- `classify_roi(roi)` from both scripts, parameterised by the two
threshold constants (`POS_THRESHOLD`, `NEG_THRESHOLD` differ between the
two scripts: 1.5/0.8 in build_top200, 2.0/0.9 in the top-up script):
```
def classify_roi(roi):
    if roi is None: return None
    if roi >= POS_THRESHOLD: return "positive"
    if roi <= NEG_THRESHOLD: return "negative"
    return None
```
-/
def classifyRoi (posT negT : ℚ) : Option ℚ → Option Label
  | none => none
  | some roi =>
    if posT ≤ roi then some .positive
    else if roi ≤ negT then some .negative
    else none

/-- Outcome of one `tmdb_get` call as seen by the caller:
`fatalExit` models `sys.exit(...)` on a 401, `httpError` models the
`requests.HTTPError` raised by `r.raise_for_status()`, `ok` is a
successful return of the response. -/
inductive FetchOutcome where
  | fatalExit
  | httpError (status : ℕ)
  | ok (status : ℕ)
deriving DecidableEq, Repr

/-- `r.raise_for_status()`: raises `requests.HTTPError` for any status in
[400, 600), otherwise returns the response. -/
def raiseForStatus (s : ℕ) : FetchOutcome :=
  if 400 ≤ s ∧ s < 600 then .httpError s else .ok s

/-- The retry loop of `tmdb_get(url, params, retries=3, backoff=0.75)`.
`resp attempt` is the status code the server returns to the
`session.get` issued on that attempt; the second component counts the
HTTP calls actually made.  Mirrors:
```
for attempt in range(retries):
    r = session.get(url, params=params, timeout=TIMEOUT)
    if r.status_code == 401:
        sys.exit(...)
    if r.status_code in (429,) or 500 <= r.status_code < 600:
        time.sleep(backoff * (2 ** attempt)); continue
    r.raise_for_status()
    return r
r.raise_for_status()
return r
```
(The sleeps are timing only and are not modelled; the post-loop
`raise_for_status` re-examines the last response, which by that point is
always a 429/5xx.) -/
def tmdbGetLoop (resp : ℕ → ℕ) : ℕ → ℕ → FetchOutcome × ℕ
  | attempt, 0 => (raiseForStatus (resp (attempt - 1)), 0)
  | attempt, fuel + 1 =>
    let s := resp attempt
    if s = 401 then (.fatalExit, 1)
    else if s = 429 ∨ (500 ≤ s ∧ s < 600) then
      let r := tmdbGetLoop resp (attempt + 1) fuel
      (r.1, r.2 + 1)
    else (raiseForStatus s, 1)

/-- `tmdb_get` with its retry budget (default 3 in both scripts). -/
def tmdbGet (resp : ℕ → ℕ) (retries : ℕ) : FetchOutcome × ℕ :=
  tmdbGetLoop resp 0 retries

/-- The file writes `main()` performs, as (path, contents) pairs.  The
first statement of `main()` is the credential sanity check, a
`tmdb_get` on the configuration endpoint: if that call exits the
process (fatal 401), none of the later statements — harvesting and
every `write_csv` call — run.  `laterWrites` stands for whatever the
rest of `main()` would have written. -/
def mainWrites (resp : ℕ → ℕ) (laterWrites : List (String × String)) :
    List (String × String) :=
  match (tmdbGet resp 3).1 with
  | .fatalExit => []
  | _ => laterWrites

/-- One output record, as built in the harvest loop.  The auxiliary
passthrough fields (`vote_average`, `vote_count`, `runtime`) play no
role in any claim and are omitted; `title` stands for
`d.get("title") or d.get("original_title")`. -/
structure Row where
  id : ℕ
  title : String
  originalLanguage : String
  releaseDate : String
  budget : ℤ
  revenue : ℤ
  roi : ℚ
  success : ℕ
deriving DecidableEq, Repr

/-- The fixed header: `list(rows[0].keys())` of the row dict literal,
which is identical for every row both scripts build. -/
def headerLine : String :=
  "id,title,original_language,release_date,budget,revenue,roi,success"

/-- One CSV line for a row (`csv.DictWriter.writerow`). -/
def renderRow (r : Row) : String :=
  String.intercalate ","
    [toString r.id, r.title, r.originalLanguage, r.releaseDate,
     toString r.budget, toString r.revenue, toString r.roi, toString r.success]

/-- Full contents written by `write_csv`: header line then one line per
record, in list order. -/
def renderCsv (rows : List Row) : String :=
  String.intercalate "\n" (headerLine :: rows.map renderRow)

/-- `write_csv(path, rows)`: returns the new contents of the file at
`path`, given its previous contents (`none` = no file).  An empty row
list returns immediately without opening the path; otherwise the file
is opened with mode "w", i.e. truncated and rewritten from scratch:
```
def write_csv(path, rows, header=None):
    if not rows: return
    if header is None: header = list(rows[0].keys())
    with open(path, "w", newline="", encoding="utf-8") as f:
        w = csv.DictWriter(f, fieldnames=header)
        w.writeheader()
        for r in rows: w.writerow(r)
```
-/
def writeCsv (rows : List Row) (prev : Option String) : Option String :=
  if rows = [] then prev else some (renderCsv rows)

/-- `sorts` in build_top200_dataset.py. -/
def top200Sorts : List String :=
  ["revenue.asc", "popularity.asc", "vote_count.asc", "release_date.asc"]

/-- `SORTS` in topup_tmdb_dataset.py. -/
def topupSorts : List String :=
  ["revenue.asc", "vote_count.asc", "popularity.asc", "release_date.asc"]

/-- Sort sequence used for one year in build_top200_dataset.py:
`random.shuffle(sorts)` and nothing else — no strategy is forced to the
front.  `shuffle` is the permutation the shuffle happened to produce. -/
def yearSortsTop200 (shuffle : List String → List String) : List String :=
  shuffle top200Sorts

/-- Sort sequence used for one year in topup_tmdb_dataset.py:
```
sorts = list(SORTS); random.shuffle(sorts)
if "revenue.asc" in sorts:
    sorts.remove("revenue.asc")
sorts = ["revenue.asc"] + sorts
```
-/
def yearSortsTopup (shuffle : List String → List String) : List String :=
  let s := shuffle topupSorts
  "revenue.asc" :: (if "revenue.asc" ∈ s then s.erase "revenue.asc" else s)

/-- The detail JSON body, restricted to the fields the loop reads.
`none` models an absent key (`d.get(...)` returning `None`). -/
structure MovieDetail where
  budget : Option ℤ
  revenue : Option ℤ
  title : String
  originalLanguage : String
  releaseDate : String
deriving DecidableEq, Repr

/-- `d.get("budget") or 0`: `None` (and `0` itself) becomes `0`. -/
def getOr0 (x : Option ℤ) : ℤ := x.getD 0

/-- `round(x, 4)`: the ratio rounded to four decimal places, as stored
in the row's roi field. -/
def round4 (q : ℚ) : ℚ := (round (q * 10000) : ℚ) / 10000

/-- Mutable state of the harvest loop: the seen-id set (a list with set
semantics), the full output row list, and the two class pools. -/
structure HState where
  seen : List ℕ
  rows : List Row
  pos : List Row
  neg : List Row
deriving DecidableEq, Repr

/-- The empty starting state of `harvest()` in build_top200_dataset.py. -/
def st0 : HState := ⟨[], [], [], []⟩

/-- The row dict literal both loops build once a label is assigned. -/
def mkRow (mid : ℕ) (d : MovieDetail) (budget revenue : ℤ) (roi : ℚ)
    (lab : Label) : Row :=
  { id := mid, title := d.title, originalLanguage := d.originalLanguage,
    releaseDate := d.releaseDate, budget := budget, revenue := revenue,
    roi := round4 roi, success := if lab = .positive then 1 else 0 }

/-- Processing of one discover-page entry `m` in the inner loop of
`harvest()` (build_top200_dataset.py, lines 130-177).  `fetch mid` is
the outcome of `movie_detail(mid)` (`none` = `requests.HTTPError` after
the retry loop).  Returns the new state and the list of detail fetches
performed (`[]` or `[mid]`).  Note `seen_ids.add(mid)` runs BEFORE the
detail fetch, so failed and discarded ids stay in the seen set:
```
mid = m.get("id")
if not mid or mid in seen_ids: continue
seen_ids.add(mid)
try: d = movie_detail(mid)
except requests.HTTPError: continue
budget = d.get("budget") or 0
revenue = d.get("revenue") or 0
if budget <= 0 or revenue <= 0: continue
roi_val = revenue / float(budget) if budget else None
label = classify_roi(roi_val)
if label is None: continue
row = {...}; rows.append(row)
(pos if label == "positive" else neg).append(row)
```
-/
def stepTop200 (posT negT : ℚ) (fetch : ℕ → Option MovieDetail)
    (st : HState) (mid? : Option ℕ) : HState × List ℕ :=
  match mid? with
  | none => (st, [])
  | some mid =>
    if mid = 0 ∨ mid ∈ st.seen then (st, [])
    else
      let st1 : HState := { st with seen := mid :: st.seen }
      match fetch mid with
      | none => (st1, [mid])
      | some d =>
        let budget := getOr0 d.budget
        let revenue := getOr0 d.revenue
        if budget ≤ 0 ∨ revenue ≤ 0 then (st1, [mid])
        else
          match classifyRoi posT negT (some ((revenue : ℚ) / (budget : ℚ))) with
          | none => (st1, [mid])
          | some lab =>
            let row := mkRow mid d budget revenue ((revenue : ℚ) / (budget : ℚ)) lab
            ({ st1 with
                rows := st1.rows ++ [row],
                pos := if lab = .positive then st1.pos ++ [row] else st1.pos,
                neg := if lab = .positive then st1.neg else st1.neg ++ [row] },
             [mid])

/-- Processing of one discover-page entry in the inner loop of `main()`
(topup_tmdb_dataset.py, lines 144-194).  Here `seen_ids.add(mid)` runs
only in the success branch, together with the row append; on a fetch
failure, a non-positive budget/revenue, a middle-band ratio, or the
NEGATIVE_HUNT_ONLY skip, the state is left untouched:
```
mid = m.get("id")
if not mid: continue
mid = int(mid)
if mid in seen_ids: continue
try: d = movie_detail(mid)
except requests.HTTPError: continue
budget = d.get("budget") or 0; revenue = d.get("revenue") or 0
if budget <= 0 or revenue <= 0: continue
roi = (revenue / float(budget)) if budget else None
label = classify_roi(roi)
if label is None: continue
if NEGATIVE_HUNT_ONLY and label == "positive" and len(pos) >= TARGET_PER_CLASS: continue
row = {...}
rows.append(row); seen_ids.add(mid)
if label == "positive": pos.append(row)
else: neg.append(row)
```
-/
def stepTopup (posT negT : ℚ) (huntOnly : Bool) (target : ℕ)
    (fetch : ℕ → Option MovieDetail) (st : HState) (mid? : Option ℕ) :
    HState × List ℕ :=
  match mid? with
  | none => (st, [])
  | some mid =>
    if mid = 0 ∨ mid ∈ st.seen then (st, [])
    else
      match fetch mid with
      | none => (st, [mid])
      | some d =>
        let budget := getOr0 d.budget
        let revenue := getOr0 d.revenue
        if budget ≤ 0 ∨ revenue ≤ 0 then (st, [mid])
        else
          match classifyRoi posT negT (some ((revenue : ℚ) / (budget : ℚ))) with
          | none => (st, [mid])
          | some lab =>
            if huntOnly = true ∧ lab = .positive ∧ target ≤ st.pos.length then
              (st, [mid])
            else
              let row := mkRow mid d budget revenue ((revenue : ℚ) / (budget : ℚ)) lab
              ({ seen := mid :: st.seen,
                 rows := st.rows ++ [row],
                 pos := if lab = .positive then st.pos ++ [row] else st.pos,
                 neg := if lab = .positive then st.neg else st.neg ++ [row] },
               [mid])

/-- Folding a per-entity step over the stream of discover-page entries,
in encounter order, accumulating the log of detail fetches performed.
The page/year/sort structure, the periodic partial save and the
early-exit condition only decide WHICH prefix of entries is processed;
state claims quantify over every entry list, so they hold for that
prefix in particular. -/
def runSteps (step : HState → Option ℕ → HState × List ℕ) :
    HState → List (Option ℕ) → HState × List ℕ
  | st, [] => (st, [])
  | st, m :: ms =>
    let r1 := step st m
    let r2 := runSteps step r1.1 ms
    (r2.1, r1.2 ++ r2.2)

/-- Validity of a materialized record: strictly positive budget and
revenue, and the stored roi equal to revenue/budget rounded to four
decimal places. -/
def RowValid (r : Row) : Prop :=
  0 < r.budget ∧ 0 < r.revenue ∧
    r.roi = round4 ((r.revenue : ℚ) / (r.budget : ℚ))

/-- What one harvest step may do to the state: the seen set only grows,
detail fetches are only performed for ids not yet seen, and the row
list grows by fresh, valid rows that also land (all together) in at
most one pool side per step. -/
def StepSpec (step : HState → Option ℕ → HState × List ℕ) : Prop :=
  ∀ st m,
    st.seen ⊆ (step st m).1.seen ∧
    (∀ i ∈ (step st m).2, i ∉ st.seen) ∧
    ∃ nr : List Row,
      (step st m).1.rows = st.rows ++ nr ∧
      ((step st m).1.pos = st.pos ∨ (step st m).1.pos = st.pos ++ nr) ∧
      ((step st m).1.neg = st.neg ∨ (step st m).1.neg = st.neg ++ nr) ∧
      (nr.map Row.id).Nodup ∧
      ∀ r ∈ nr, r.id ∉ st.seen ∧ r.id ∈ (step st m).1.seen ∧ RowValid r

/-- `k = min(len(pos), len(neg), target)`; if `k == 0` the script warns
and writes no balanced file (`none`); otherwise each pool is shuffled,
the first k of each are concatenated, the concatenation is shuffled and
returned.  The three `shuf` parameters are the permutations the three
`random.shuffle` calls happened to produce. -/
def balancedSample (shufP shufN shufAll : List Row → List Row)
    (pos neg : List Row) (target : ℕ) : Option (List Row) :=
  let k := min (min pos.length neg.length) target
  if k = 0 then none
  else some (shufAll ((shufP pos).take k ++ (shufN neg).take k))

/-- A detail fetch that always fails with an HTTP error (server kept
returning 429/5xx until the retry budget ran out). -/
def fetchFail : ℕ → Option MovieDetail := fun _ => none

/-- A detail fetch returning budget 3, revenue 10 (roi = 10/3, a ratio
whose 4-decimal rounding is inexact). -/
def fetchRound : ℕ → Option MovieDetail :=
  fun _ => some ⟨some 3, some 10, "t", "en", "2020-01-01"⟩

/-- A detail fetch returning budget 0 (data-insufficient: discarded). -/
def fetchZeroBudget : ℕ → Option MovieDetail :=
  fun _ => some ⟨some 0, some 5, "t", "en", "2020-01-01"⟩

/-- A concrete positive-class row (roi 10 ≥ any configured threshold). -/
def rowP : Row := ⟨1, "p", "en", "2020-01-01", 10, 100, 10, 1⟩

/-- A concrete negative-class row. -/
def rowN : Row := ⟨2, "n", "en", "2020-01-01", 100, 10, 1/10, 0⟩

end Harvester

open Harvester

/-- Claim C1: for thresholds with NEG_THRESHOLD < POS_THRESHOLD (as
configured in both scripts) and any budget > 0, revenue > 0,
`classify_roi` applied to roi = revenue/budget is positive exactly when
roi ≥ POS_THRESHOLD, negative exactly when roi ≤ NEG_THRESHOLD, and
discards (returns none) exactly on the open middle band. -/
theorem classifyRoi_threshold_exact (posT negT : ℚ) (budget revenue : ℤ)
    (hT : negT < posT) (hb : 0 < budget) (hr : 0 < revenue) :
    (classifyRoi posT negT (some ((revenue : ℚ) / budget)) = some .positive ↔
      posT ≤ (revenue : ℚ) / budget) ∧
    (classifyRoi posT negT (some ((revenue : ℚ) / budget)) = some .negative ↔
      (revenue : ℚ) / budget ≤ negT) ∧
    (classifyRoi posT negT (some ((revenue : ℚ) / budget)) = none ↔
      (negT < (revenue : ℚ) / budget ∧ (revenue : ℚ) / budget < posT)) := by
  set roi := (revenue : ℚ) / budget with hroi
  have hcl : classifyRoi posT negT (some roi) =
      if posT ≤ roi then some Label.positive
      else if roi ≤ negT then some Label.negative else none := rfl
  rw [hcl]
  split_ifs with h1 h2
  · refine ⟨by simp [h1], ?_, ?_⟩
    · simp only [Option.some.injEq, reduceCtorEq, false_iff]
      intro h; linarith
    · simp only [reduceCtorEq, false_iff, not_and, not_lt]
      intro _; linarith
  · refine ⟨?_, by simp [h2], ?_⟩
    · simp only [Option.some.injEq, reduceCtorEq, false_iff]
      exact h1
    · simp only [reduceCtorEq, false_iff, not_and, not_lt]
      intro h; linarith
  · refine ⟨?_, ?_, ?_⟩
    · simp only [reduceCtorEq, false_iff]
      exact h1
    · simp only [reduceCtorEq, false_iff]
      exact h2
    · simp only [true_iff]
      exact ⟨lt_of_not_le h2, lt_of_not_le h1⟩

/-- Witness for C1 at the build_top200 thresholds (1.5, 0.8) with
budget = 10, revenue = 15 (roi exactly 1.5, the positive boundary). -/
theorem classifyRoi_threshold_exact_witness :
    (classifyRoi (3/2) (4/5) (some ((15 : ℤ) / ((10 : ℤ) : ℚ))) = some .positive ↔
      (3/2 : ℚ) ≤ (15 : ℤ) / ((10 : ℤ) : ℚ)) ∧
    (classifyRoi (3/2) (4/5) (some ((15 : ℤ) / ((10 : ℤ) : ℚ))) = some .negative ↔
      ((15 : ℤ) : ℚ) / ((10 : ℤ) : ℚ) ≤ 4/5) ∧
    (classifyRoi (3/2) (4/5) (some ((15 : ℤ) / ((10 : ℤ) : ℚ))) = none ↔
      ((4/5 : ℚ) < (15 : ℤ) / ((10 : ℤ) : ℚ) ∧ ((15 : ℤ) : ℚ) / ((10 : ℤ) : ℚ) < 3/2)) :=
  classifyRoi_threshold_exact (3/2) (4/5) 10 15 (by norm_num) (by norm_num) (by norm_num)

/-- Claim C5: a 401 response terminates the whole process at once —
`tmdb_get` exits after exactly one HTTP call, consuming no retry; and
when authentication is rejected on the very first call, `main()` exits
at the credential sanity check, before any file write. -/
theorem auth_failure_fatal_no_retry :
    (∀ (resp : ℕ → ℕ) (retries : ℕ), 1 ≤ retries → resp 0 = 401 →
      tmdbGet resp retries = (.fatalExit, 1)) ∧
    (∀ (resp : ℕ → ℕ) (laterWrites : List (String × String)), resp 0 = 401 →
      mainWrites resp laterWrites = []) := by
  constructor
  · intro resp retries h1 h401
    cases retries with
    | zero => omega
    | succ n => simp [tmdbGet, tmdbGetLoop, h401]
  · intro resp laterWrites h401
    have h : tmdbGet resp 3 = (.fatalExit, 1) := by
      simp [tmdbGet, tmdbGetLoop, h401]
    simp [mainWrites, h]

/-- Witness for C5: a server that always answers 401. -/
theorem auth_failure_fatal_no_retry_witness :
    tmdbGet (fun _ => 401) 3 = (.fatalExit, 1) ∧
    mainWrites (fun _ => 401) [("movies_full.csv", "x")] = [] :=
  ⟨auth_failure_fatal_no_retry.1 (fun _ => 401) 3 (by norm_num) rfl,
   auth_failure_fatal_no_retry.2 (fun _ => 401) [("movies_full.csv", "x")] rfl⟩

/-- Counterexample to claim C6: a 404 (4xx, neither 401 nor 429) is NOT
retried until the budget of 3 attempts is spent — `raise_for_status`
inside the loop raises it to the caller after a single HTTP call. -/
theorem nonretryable_4xx_first_call_cex :
    tmdbGet (fun _ => 404) 3 = (.httpError 404, 1) ∧ (1 : ℕ) ≠ 3 := by
  constructor
  · rfl
  · decide

/-- Amended C6: every 4xx response other than 401 and 429 is surfaced
to the caller as an HTTP error immediately on its first occurrence,
after exactly one HTTP call — no retry attempt is consumed by it. -/
theorem nonretryable_4xx_immediate (resp : ℕ → ℕ) (retries s : ℕ)
    (h1 : 1 ≤ retries) (h0 : resp 0 = s) (h400 : 400 ≤ s) (h500 : s < 500)
    (h401 : s ≠ 401) (h429 : s ≠ 429) :
    tmdbGet resp retries = (.httpError s, 1) := by
  cases retries with
  | zero => omega
  | succ n =>
    show tmdbGetLoop resp 0 (n + 1) = _
    unfold tmdbGetLoop
    rw [show resp 0 = s from h0]
    rw [if_neg h401, if_neg (by omega : ¬(s = 429 ∨ 500 ≤ s ∧ s < 600))]
    unfold raiseForStatus
    rw [if_pos (by omega : 400 ≤ s ∧ s < 600)]

/-- Witness for amended C6: a server that always answers 404, with the
scripts' retry budget of 3. -/
theorem nonretryable_4xx_immediate_witness :
    tmdbGet (fun _ => 404) 3 = (.httpError 404, 1) :=
  nonretryable_4xx_immediate (fun _ => 404) 3 404 (by norm_num) rfl
    (by norm_num) (by norm_num) (by norm_num) (by norm_num)

/-- Claim C8: for a non-empty record list the checkpoint write is a
full replacement determined solely by the record list — whatever the
file held before (`prev`, or `prevB` on another run), the new contents
are `renderCsv rows`; hence flushing twice with no new records in
between is idempotent and the file never grows by appending. -/
theorem checkpoint_full_replace_idempotent (rows : List Row)
    (prev prevB : Option String) (h : rows ≠ []) :
    writeCsv rows prev = some (renderCsv rows) ∧
    writeCsv rows (writeCsv rows prev) = writeCsv rows prev ∧
    writeCsv rows prev = writeCsv rows prevB := by
  simp [writeCsv, h]

/-- Witness for C8: one concrete record over an existing file. -/
theorem checkpoint_full_replace_idempotent_witness :
    writeCsv [rowP] (some "old contents") = some (renderCsv [rowP]) ∧
    writeCsv [rowP] (writeCsv [rowP] (some "old contents")) =
      writeCsv [rowP] (some "old contents") ∧
    writeCsv [rowP] (some "old contents") = writeCsv [rowP] none :=
  checkpoint_full_replace_idempotent [rowP] (some "old contents") none
    (by simp)

/-- Claim C10: `write_csv` with an empty record list returns without
opening the path — no file is created (`none` stays `none`) and any
existing contents are left byte-for-byte unchanged. -/
theorem writeCsv_empty_noop (prev : Option String) :
    writeCsv [] prev = prev := rfl

/-- Counterexample to claim C9: in build_top200_dataset.py the per-year
sort sequence is only `random.shuffle(sorts)` — nothing forces the bias
strategy "revenue.asc" to the front.  `List.reverse` is a legitimate
outcome of the shuffle (a permutation of the pool), yet the resulting
year sequence starts with "release_date.asc". -/
theorem top200_bias_not_forced_cex :
    (yearSortsTop200 List.reverse).head? = some "release_date.asc" ∧
    List.Perm (yearSortsTop200 List.reverse) top200Sorts ∧
    "release_date.asc" ≠ "revenue.asc" := by
  refine ⟨rfl, List.reverse_perm top200Sorts, by decide⟩

/-- Amended C9: in the top-up script each year's sort sequence is a
permutation of the configured strategies with the bias strategy
"revenue.asc" always first; in build_top200 the year's sequence is a
shuffled permutation of the configured strategies with no strategy
forced first. -/
theorem year_sorts_spec (shuffle : List String → List String)
    (hs : ∀ l, List.Perm (shuffle l) l) :
    (yearSortsTopup shuffle).head? = some "revenue.asc" ∧
    List.Perm (yearSortsTopup shuffle) topupSorts ∧
    List.Perm (yearSortsTop200 shuffle) top200Sorts := by
  refine ⟨rfl, ?_, hs _⟩
  show List.Perm ("revenue.asc" ::
    (if "revenue.asc" ∈ shuffle topupSorts then
      (shuffle topupSorts).erase "revenue.asc" else shuffle topupSorts))
    topupSorts
  have hperm := hs topupSorts
  have hmem : "revenue.asc" ∈ shuffle topupSorts :=
    hperm.mem_iff.mpr (by simp [topupSorts])
  rw [if_pos hmem]
  exact ((List.perm_cons_erase hmem).symm).trans hperm

/-- Witness for amended C9: the identity permutation as the shuffle
outcome. -/
theorem year_sorts_spec_witness :
    (yearSortsTopup id).head? = some "revenue.asc" ∧
    List.Perm (yearSortsTopup id) topupSorts ∧
    List.Perm (yearSortsTop200 id) top200Sorts :=
  year_sorts_spec id (fun l => List.Perm.refl l)

/-- The build_top200 per-entity step satisfies the step contract: seen
only grows, fetches only for unseen ids, rows grow by fresh valid rows. -/
theorem stepTop200_spec (posT negT : ℚ) (fetch : ℕ → Option MovieDetail) :
    StepSpec (stepTop200 posT negT fetch) := by
  intro st m
  cases m with
  | none =>
    refine ⟨fun x hx => hx, by simp [stepTop200], [], by simp [stepTop200],
      ?_, ?_, by simp, by simp⟩
    · exact Or.inl (by simp [stepTop200])
    · exact Or.inl (by simp [stepTop200])
  | some mid =>
    by_cases hg : mid = 0 ∨ mid ∈ st.seen
    · simp only [stepTop200, if_pos hg]
      exact ⟨fun x hx => hx, by simp, [], by simp, Or.inl (by trivial), Or.inl (by trivial),
        by simp, by simp⟩
    · have hmid : mid ∉ st.seen := fun hx => hg (Or.inr hx)
      have hsub : st.seen ⊆ mid :: st.seen :=
        fun x hx => List.mem_cons_of_mem _ hx
      cases hf : fetch mid with
      | none =>
        simp only [stepTop200, if_neg hg, hf]
        exact ⟨hsub, by simpa using hmid, [], by simp, Or.inl (by trivial), Or.inl (by trivial),
          by simp, by simp⟩
      | some d =>
        by_cases hbr : getOr0 d.budget ≤ 0 ∨ getOr0 d.revenue ≤ 0
        · simp only [stepTop200, if_neg hg, hf, if_pos hbr]
          exact ⟨hsub, by simpa using hmid, [], by simp, Or.inl (by trivial),
            Or.inl (by trivial), by simp, by simp⟩
        · have hb : 0 < getOr0 d.budget := by
            rcases not_or.mp hbr with ⟨h1, _⟩; exact lt_of_not_le h1
          have hr : 0 < getOr0 d.revenue := by
            rcases not_or.mp hbr with ⟨_, h2⟩; exact lt_of_not_le h2
          cases hc : classifyRoi posT negT
              (some ((getOr0 d.revenue : ℚ) / (getOr0 d.budget : ℚ))) with
          | none =>
            simp only [stepTop200, if_neg hg, hf, if_neg hbr, hc]
            exact ⟨hsub, by simpa using hmid, [], by simp, Or.inl (by trivial),
              Or.inl (by trivial), by simp, by simp⟩
          | some lab =>
            simp only [stepTop200, if_neg hg, hf, if_neg hbr, hc]
            refine ⟨hsub, by simpa using hmid,
              [mkRow mid d (getOr0 d.budget) (getOr0 d.revenue)
                ((getOr0 d.revenue : ℚ) / (getOr0 d.budget : ℚ)) lab],
              rfl, ?_, ?_, by simp, ?_⟩
            · cases lab with
              | positive => exact Or.inr (by simp)
              | negative => exact Or.inl (by simp)
            · cases lab with
              | positive => exact Or.inl (by simp)
              | negative => exact Or.inr (by simp)
            · intro r hr2
              rw [List.mem_singleton] at hr2
              subst hr2
              exact ⟨hmid, by simp [mkRow], hb, hr, rfl⟩

/-- The top-up per-entity step satisfies the same step contract. -/
theorem stepTopup_spec (posT negT : ℚ) (huntOnly : Bool) (target : ℕ)
    (fetch : ℕ → Option MovieDetail) :
    StepSpec (stepTopup posT negT huntOnly target fetch) := by
  intro st m
  cases m with
  | none =>
    refine ⟨fun x hx => hx, by simp [stepTopup], [], by simp [stepTopup],
      ?_, ?_, by simp, by simp⟩
    · exact Or.inl (by simp [stepTopup])
    · exact Or.inl (by simp [stepTopup])
  | some mid =>
    by_cases hg : mid = 0 ∨ mid ∈ st.seen
    · simp only [stepTopup, if_pos hg]
      exact ⟨fun x hx => hx, by simp, [], by simp, Or.inl (by trivial),
        Or.inl (by trivial), by simp, by simp⟩
    · have hmid : mid ∉ st.seen := fun hx => hg (Or.inr hx)
      cases hf : fetch mid with
      | none =>
        simp only [stepTopup, if_neg hg, hf]
        exact ⟨fun x hx => hx, by simpa using hmid, [], by simp,
          Or.inl (by trivial), Or.inl (by trivial), by simp, by simp⟩
      | some d =>
        by_cases hbr : getOr0 d.budget ≤ 0 ∨ getOr0 d.revenue ≤ 0
        · simp only [stepTopup, if_neg hg, hf, if_pos hbr]
          exact ⟨fun x hx => hx, by simpa using hmid, [], by simp,
            Or.inl (by trivial), Or.inl (by trivial), by simp, by simp⟩
        · have hb : 0 < getOr0 d.budget := by
            rcases not_or.mp hbr with ⟨h1, _⟩; exact lt_of_not_le h1
          have hr : 0 < getOr0 d.revenue := by
            rcases not_or.mp hbr with ⟨_, h2⟩; exact lt_of_not_le h2
          cases hc : classifyRoi posT negT
              (some ((getOr0 d.revenue : ℚ) / (getOr0 d.budget : ℚ))) with
          | none =>
            simp only [stepTopup, if_neg hg, hf, if_neg hbr, hc]
            exact ⟨fun x hx => hx, by simpa using hmid, [], by simp,
              Or.inl (by trivial), Or.inl (by trivial), by simp, by simp⟩
          | some lab =>
            by_cases hhunt : huntOnly = true ∧ lab = .positive ∧
                target ≤ st.pos.length
            · simp only [stepTopup, if_neg hg, hf, if_neg hbr, hc,
                if_pos hhunt]
              exact ⟨fun x hx => hx, by simpa using hmid, [], by simp,
                Or.inl (by trivial), Or.inl (by trivial), by simp, by simp⟩
            · simp only [stepTopup, if_neg hg, hf, if_neg hbr, hc,
                if_neg hhunt]
              refine ⟨fun x hx => List.mem_cons_of_mem _ hx,
                by simpa using hmid,
                [mkRow mid d (getOr0 d.budget) (getOr0 d.revenue)
                  ((getOr0 d.revenue : ℚ) / (getOr0 d.budget : ℚ)) lab],
                rfl, ?_, ?_, by simp, ?_⟩
              · cases lab with
                | positive => exact Or.inr (by simp)
                | negative => exact Or.inl (by simp)
              · cases lab with
                | positive => exact Or.inl (by simp)
                | negative => exact Or.inr (by simp)
              · intro r hr2
                rw [List.mem_singleton] at hr2
                subst hr2
                exact ⟨hmid, by simp [mkRow], hb, hr, rfl⟩

/-- Folding any step satisfying the step contract preserves the run
invariants: distinct row ids, row ids registered in the seen set, no
fetch of an already-seen id, monotone seen set, no second row for an
already-seen id, and validity of every newly materialized row in the
full list and both pools. -/
theorem runSteps_spec (step : HState → Option ℕ → HState × List ℕ)
    (hstep : StepSpec step) (ms : List (Option ℕ)) (st : HState)
    (hnd : (st.rows.map Row.id).Nodup)
    (hin : ∀ r ∈ st.rows, r.id ∈ st.seen) :
    ((runSteps step st ms).1.rows.map Row.id).Nodup ∧
    (∀ r ∈ (runSteps step st ms).1.rows, r.id ∈ (runSteps step st ms).1.seen) ∧
    (∀ i ∈ (runSteps step st ms).2, i ∉ st.seen) ∧
    st.seen ⊆ (runSteps step st ms).1.seen ∧
    (∀ r ∈ (runSteps step st ms).1.rows, r.id ∈ st.seen → r ∈ st.rows) ∧
    (∀ r ∈ (runSteps step st ms).1.rows, r ∈ st.rows ∨ RowValid r) ∧
    (∀ r ∈ (runSteps step st ms).1.pos, r ∈ st.pos ∨ RowValid r) ∧
    (∀ r ∈ (runSteps step st ms).1.neg, r ∈ st.neg ∨ RowValid r) := by
  induction ms generalizing st with
  | nil =>
    exact ⟨hnd, hin, by simp [runSteps], fun x hx => hx,
      fun r hr _ => hr, fun r hr => Or.inl hr, fun r hr => Or.inl hr,
      fun r hr => Or.inl hr⟩
  | cons m ms ih =>
    obtain ⟨hsub1, hf1, nr, hrows1, hpos1, hneg1, hndnr, hnr⟩ := hstep st m
    have hnd1 : ((step st m).1.rows.map Row.id).Nodup := by
      rw [hrows1, List.map_append]
      refine hnd.append hndnr ?_
      intro x hx1 hx2
      obtain ⟨r, hr, hidr⟩ := List.mem_map.mp hx1
      obtain ⟨r2, hr2, hidr2⟩ := List.mem_map.mp hx2
      have h1 : x ∈ st.seen := by rw [← hidr]; exact hin r hr
      have h2 : x ∉ st.seen := by rw [← hidr2]; exact (hnr r2 hr2).1
      exact h2 h1
    have hin1 : ∀ r ∈ (step st m).1.rows, r.id ∈ (step st m).1.seen := by
      intro r hr
      rw [hrows1] at hr
      rcases List.mem_append.mp hr with h | h
      · exact hsub1 (hin r h)
      · exact (hnr r h).2.1
    obtain ⟨ih1, ih2, ih3, ih4, ih5, ih6, ih7, ih8⟩ :=
      ih (step st m).1 hnd1 hin1
    have hrun : runSteps step st (m :: ms) =
        ((runSteps step (step st m).1 ms).1,
         (step st m).2 ++ (runSteps step (step st m).1 ms).2) := rfl
    rw [hrun]
    refine ⟨ih1, ih2, ?_, fun x hx => ih4 (hsub1 hx), ?_, ?_, ?_, ?_⟩
    · intro i hi
      rcases List.mem_append.mp hi with h | h
      · exact hf1 i h
      · intro hseen
        exact ih3 i h (hsub1 hseen)
    · intro r hr hseen
      have h2 := ih5 r hr (hsub1 hseen)
      rw [hrows1] at h2
      rcases List.mem_append.mp h2 with h | h
      · exact h
      · exact absurd hseen (hnr r h).1
    · intro r hr
      rcases ih6 r hr with h | h
      · rw [hrows1] at h
        rcases List.mem_append.mp h with h2 | h2
        · exact Or.inl h2
        · exact Or.inr (hnr r h2).2.2
      · exact Or.inr h
    · intro r hr
      rcases ih7 r hr with h | h
      · rcases hpos1 with hp | hp
        · rw [hp] at h
          exact Or.inl h
        · rw [hp] at h
          rcases List.mem_append.mp h with h2 | h2
          · exact Or.inl h2
          · exact Or.inr (hnr r h2).2.2
      · exact Or.inr h
    · intro r hr
      rcases ih8 r hr with h | h
      · rcases hneg1 with hp | hp
        · rw [hp] at h
          exact Or.inl h
        · rw [hp] at h
          rcases List.mem_append.mp h with h2 | h2
          · exact Or.inl h2
          · exact Or.inr (hnr r h2).2.2
      · exact Or.inr h

/-- Claim C2: in both harvest loops, starting from any state whose
accumulated rows have pairwise distinct ids all registered in the seen
set (the empty start of build_top200, or a top-up start pre-seeded from
an existing output file), processing any stream of discover entries
keeps the full output row list free of duplicate identifiers; no detail
fetch is ever performed for an identifier already in the seen set, and
no new row is ever produced for such an identifier. -/
theorem harvest_dedup_invariant (posT negT : ℚ) (huntOnly : Bool)
    (target : ℕ) (fetch : ℕ → Option MovieDetail) (st : HState)
    (ms : List (Option ℕ))
    (hnd : (st.rows.map Row.id).Nodup)
    (hin : ∀ r ∈ st.rows, r.id ∈ st.seen) :
    (((runSteps (stepTop200 posT negT fetch) st ms).1.rows.map Row.id).Nodup ∧
     (∀ i ∈ (runSteps (stepTop200 posT negT fetch) st ms).2, i ∉ st.seen) ∧
     (∀ r ∈ (runSteps (stepTop200 posT negT fetch) st ms).1.rows,
        r.id ∈ st.seen → r ∈ st.rows)) ∧
    (((runSteps (stepTopup posT negT huntOnly target fetch) st ms).1.rows.map
        Row.id).Nodup ∧
     (∀ i ∈ (runSteps (stepTopup posT negT huntOnly target fetch) st ms).2,
        i ∉ st.seen) ∧
     (∀ r ∈ (runSteps (stepTopup posT negT huntOnly target fetch) st ms).1.rows,
        r.id ∈ st.seen → r ∈ st.rows)) := by
  obtain ⟨a1, _, a3, _, a5, _, _, _⟩ :=
    runSteps_spec _ (stepTop200_spec posT negT fetch) ms st hnd hin
  obtain ⟨b1, _, b3, _, b5, _, _, _⟩ :=
    runSteps_spec _ (stepTopup_spec posT negT huntOnly target fetch) ms st hnd hin
  exact ⟨⟨a1, a3, a5⟩, ⟨b1, b3, b5⟩⟩

/-- Witness for C2: the same id encountered on two discover pages, from
the empty start state. -/
theorem harvest_dedup_invariant_witness :
    (((runSteps (stepTop200 (3/2) (4/5) fetchRound) st0
        [some 5, some 5]).1.rows.map Row.id).Nodup ∧
     (∀ i ∈ (runSteps (stepTop200 (3/2) (4/5) fetchRound) st0
        [some 5, some 5]).2, i ∉ st0.seen) ∧
     (∀ r ∈ (runSteps (stepTop200 (3/2) (4/5) fetchRound) st0
        [some 5, some 5]).1.rows, r.id ∈ st0.seen → r ∈ st0.rows)) ∧
    (((runSteps (stepTopup (3/2) (4/5) false 1000 fetchRound) st0
        [some 5, some 5]).1.rows.map Row.id).Nodup ∧
     (∀ i ∈ (runSteps (stepTopup (3/2) (4/5) false 1000 fetchRound) st0
        [some 5, some 5]).2, i ∉ st0.seen) ∧
     (∀ r ∈ (runSteps (stepTopup (3/2) (4/5) false 1000 fetchRound) st0
        [some 5, some 5]).1.rows, r.id ∈ st0.seen → r ∈ st0.rows)) :=
  harvest_dedup_invariant (3/2) (4/5) false 1000 fetchRound st0
    [some 5, some 5] (by simp [st0]) (by simp [st0])

/-- Counterexample to claim C4: in build_top200_dataset.py the
identifier is added to the seen set BEFORE the detail fetch, so after a
retryable-exhausted HTTP failure the id 5 remains in the seen set, and
a later encounter of the same id performs no detail fetch at all. -/
theorem seen_kept_on_failure_cex :
    (5 : ℕ) ∈ (stepTop200 (3/2) (4/5) fetchFail st0 (some 5)).1.seen ∧
    (stepTop200 (3/2) (4/5) fetchFail
      (stepTop200 (3/2) (4/5) fetchFail st0 (some 5)).1 (some 5)).2 = [] := by
  constructor
  · decide
  · decide

/-- Amended C4: only in topup_tmdb_dataset.py is the seen set left
untouched on failure or discard — a fetch that ends in a
retryable-exhausted HTTP error, a non-positive budget or revenue, or a
middle-band ratio leaves the whole state unchanged, so an unseen id is
detail-fetched on that encounter and again on the next one.  (In
build_top200_dataset.py the id is added to the seen set before the
fetch, so failures and discards stay seen for the rest of the run.) -/
theorem topup_seen_not_updated_on_failure (posT negT : ℚ) (huntOnly : Bool)
    (target : ℕ) (fetch : ℕ → Option MovieDetail) (st : HState) (mid : ℕ)
    (hdisc : match fetch mid with
      | none => True
      | some d => getOr0 d.budget ≤ 0 ∨ getOr0 d.revenue ≤ 0 ∨
          classifyRoi posT negT
            (some ((getOr0 d.revenue : ℚ) / (getOr0 d.budget : ℚ))) = none) :
    (stepTopup posT negT huntOnly target fetch st (some mid)).1 = st ∧
    (mid ∉ st.seen → mid ≠ 0 →
      (stepTopup posT negT huntOnly target fetch st (some mid)).2 = [mid] ∧
      (stepTopup posT negT huntOnly target fetch
        ((stepTopup posT negT huntOnly target fetch st (some mid)).1)
        (some mid)).2 = [mid]) := by
  have hstep : ∀ st2 : HState,
      (stepTopup posT negT huntOnly target fetch st2 (some mid)).1 = st2 ∧
      (¬(mid = 0 ∨ mid ∈ st2.seen) →
        (stepTopup posT negT huntOnly target fetch st2 (some mid)).2 = [mid]) := by
    intro st2
    by_cases hg : mid = 0 ∨ mid ∈ st2.seen
    · simp [stepTopup, hg]
    · cases hf : fetch mid with
      | none => simp [stepTopup, hg, hf]
      | some d =>
        by_cases hbr : getOr0 d.budget ≤ 0 ∨ getOr0 d.revenue ≤ 0
        · simp [stepTopup, hg, hf, hbr]
        · have hcl : classifyRoi posT negT
              (some ((getOr0 d.revenue : ℚ) / (getOr0 d.budget : ℚ))) = none := by
            rw [hf] at hdisc
            rcases hdisc with h | h | h
            · exact absurd (Or.inl h) hbr
            · exact absurd (Or.inr h) hbr
            · exact h
          simp [stepTopup, hg, hf, hbr, hcl]
  refine ⟨(hstep st).1, fun hseen h0 => ⟨?_, ?_⟩⟩
  · exact (hstep st).2 (not_or.mpr ⟨h0, hseen⟩)
  · rw [(hstep st).1]
    exact (hstep st).2 (not_or.mpr ⟨h0, hseen⟩)

/-- Witness for amended C4: a detail body with budget 0 (discarded as
data-insufficient) at the top-up thresholds — the state is unchanged
and the fetch is performed on this encounter. -/
theorem topup_seen_not_updated_on_failure_witness :
    (stepTopup 2 (9/10) false 1000 fetchZeroBudget st0 (some 5)).1 = st0 ∧
    (stepTopup 2 (9/10) false 1000 fetchZeroBudget st0 (some 5)).2 = [5] := by
  have h := topup_seen_not_updated_on_failure 2 (9/10) false 1000
    fetchZeroBudget st0 5 (by
      show getOr0 (some (0:ℤ)) ≤ 0 ∨ getOr0 (some (5:ℤ)) ≤ 0 ∨
        classifyRoi 2 (9/10)
          (some ((getOr0 (some (5:ℤ)) : ℚ) / (getOr0 (some (0:ℤ)) : ℚ))) = none
      exact Or.inl (by norm_num [getOr0]))
  exact ⟨h.1, (h.2 (by simp [st0]) (by norm_num)).1⟩

/-- Counterexample to claim C7: the roi field of a materialized record
is `round(revenue/budget, 4)`, not revenue/budget itself — with budget
3 and revenue 10 the stored roi is 3.3333 ≠ 10/3. -/
theorem output_roi_rounded_cex :
    ((stepTop200 (3/2) (4/5) fetchRound st0 (some 7)).1.rows.map Row.roi =
      [33333/10000]) ∧ ((33333 : ℚ)/10000 ≠ (10 : ℚ)/3) := by
  constructor
  · have hg : ¬((7:ℕ) = 0 ∨ (7:ℕ) ∈ st0.seen) := by simp [st0]
    have hbr : ¬(getOr0 (some (3:ℤ)) ≤ 0 ∨ getOr0 (some (10:ℤ)) ≤ 0) := by
      norm_num [getOr0]
    have hq : ((getOr0 (some (10:ℤ)) : ℚ) / (getOr0 (some (3:ℤ)) : ℚ)) =
        (10 : ℚ)/3 := by norm_num [getOr0]
    have hcl : classifyRoi (3/2) (4/5)
        (some ((getOr0 (some (10:ℤ)) : ℚ) / (getOr0 (some (3:ℤ)) : ℚ))) =
        some Label.positive := by
      rw [hq]
      simp only [classifyRoi]
      rw [if_pos (by norm_num : (3/2 : ℚ) ≤ 10/3)]
    have hfl : round ((10:ℚ)/3 * 10000) = 33333 := by
      rw [round_eq, Int.floor_eq_iff]
      constructor <;> norm_num
    simp only [stepTop200, if_neg hg, fetchRound, if_neg hbr, hcl]
    simp [st0, mkRow, getOr0, round4, hq, hfl]
  · norm_num

/-- Amended C7: every record materialized by either harvest loop — in
the full output list and in both class pools — has strictly positive
budget and revenue, and its roi field equal to revenue/budget rounded
to four decimal places (`round(roi, 4)`); no record with non-positive
budget or revenue is ever materialized. -/
theorem output_record_invariant (posT negT : ℚ) (huntOnly : Bool)
    (target : ℕ) (fetch : ℕ → Option MovieDetail) (ms : List (Option ℕ)) :
    (∀ r, (r ∈ (runSteps (stepTop200 posT negT fetch) st0 ms).1.rows ∨
           r ∈ (runSteps (stepTop200 posT negT fetch) st0 ms).1.pos ∨
           r ∈ (runSteps (stepTop200 posT negT fetch) st0 ms).1.neg) →
       0 < r.budget ∧ 0 < r.revenue ∧
         r.roi = round4 ((r.revenue : ℚ) / (r.budget : ℚ))) ∧
    (∀ r, (r ∈ (runSteps (stepTopup posT negT huntOnly target fetch)
              st0 ms).1.rows ∨
           r ∈ (runSteps (stepTopup posT negT huntOnly target fetch)
              st0 ms).1.pos ∨
           r ∈ (runSteps (stepTopup posT negT huntOnly target fetch)
              st0 ms).1.neg) →
       0 < r.budget ∧ 0 < r.revenue ∧
         r.roi = round4 ((r.revenue : ℚ) / (r.budget : ℚ))) := by
  obtain ⟨_, _, _, _, _, a6, a7, a8⟩ :=
    runSteps_spec _ (stepTop200_spec posT negT fetch) ms st0
      (by simp [st0]) (by simp [st0])
  obtain ⟨_, _, _, _, _, b6, b7, b8⟩ :=
    runSteps_spec _ (stepTopup_spec posT negT huntOnly target fetch) ms st0
      (by simp [st0]) (by simp [st0])
  constructor
  · intro r hr
    rcases hr with h | h | h
    · rcases a6 r h with h2 | h2
      · exact absurd h2 (by simp [st0])
      · exact h2
    · rcases a7 r h with h2 | h2
      · exact absurd h2 (by simp [st0])
      · exact h2
    · rcases a8 r h with h2 | h2
      · exact absurd h2 (by simp [st0])
      · exact h2
  · intro r hr
    rcases hr with h | h | h
    · rcases b6 r h with h2 | h2
      · exact absurd h2 (by simp [st0])
      · exact h2
    · rcases b7 r h with h2 | h2
      · exact absurd h2 (by simp [st0])
      · exact h2
    · rcases b8 r h with h2 | h2
      · exact absurd h2 (by simp [st0])
      · exact h2

/-- Witness for amended C7: the record produced from budget 3,
revenue 10 in a one-entry run of the build_top200 loop. -/
theorem output_record_invariant_witness :
    0 < (mkRow 7 ⟨some 3, some 10, "t", "en", "2020-01-01"⟩ 3 10
          ((10 : ℚ)/3) .positive).budget ∧
    0 < (mkRow 7 ⟨some 3, some 10, "t", "en", "2020-01-01"⟩ 3 10
          ((10 : ℚ)/3) .positive).revenue ∧
    (mkRow 7 ⟨some 3, some 10, "t", "en", "2020-01-01"⟩ 3 10
          ((10 : ℚ)/3) .positive).roi =
      round4 (((mkRow 7 ⟨some 3, some 10, "t", "en", "2020-01-01"⟩ 3 10
          ((10 : ℚ)/3) .positive).revenue : ℚ) /
        ((mkRow 7 ⟨some 3, some 10, "t", "en", "2020-01-01"⟩ 3 10
          ((10 : ℚ)/3) .positive).budget : ℚ)) := by
  have hg : ¬((7:ℕ) = 0 ∨ (7:ℕ) ∈ st0.seen) := by simp [st0]
  have hbr : ¬(getOr0 (some (3:ℤ)) ≤ 0 ∨ getOr0 (some (10:ℤ)) ≤ 0) := by
    norm_num [getOr0]
  have hq : ((getOr0 (some (10:ℤ)) : ℚ) / (getOr0 (some (3:ℤ)) : ℚ)) =
      (10 : ℚ)/3 := by norm_num [getOr0]
  have hcl : classifyRoi (3/2) (4/5)
      (some ((getOr0 (some (10:ℤ)) : ℚ) / (getOr0 (some (3:ℤ)) : ℚ))) =
      some Label.positive := by
    rw [hq]
    simp only [classifyRoi]
    rw [if_pos (by norm_num : (3/2 : ℚ) ≤ 10/3)]
  have hmem : mkRow 7 ⟨some 3, some 10, "t", "en", "2020-01-01"⟩ 3 10
      ((10 : ℚ)/3) .positive ∈
      (runSteps (stepTop200 (3/2) (4/5) fetchRound) st0 [some 7]).1.rows := by
    show mkRow 7 ⟨some 3, some 10, "t", "en", "2020-01-01"⟩ 3 10
        ((10 : ℚ)/3) .positive ∈
      (stepTop200 (3/2) (4/5) fetchRound st0 (some 7)).1.rows
    simp only [stepTop200, if_neg hg, fetchRound, if_neg hbr, hcl]
    norm_num [st0, mkRow, getOr0]
  exact (output_record_invariant (3/2) (4/5) false 1000 fetchRound [some 7]).1
    (mkRow 7 ⟨some 3, some 10, "t", "en", "2020-01-01"⟩ 3 10
      ((10 : ℚ)/3) .positive)
    (Or.inl hmem)

/-- Claim C3: with k = min(|positivePool|, |negativePool|, target),
whenever k > 0 the balanced output exists and holds exactly 2k records,
exactly k of each class; and when either pool is empty the sampler
emits no balanced output (the scripts print the warning instead). -/
theorem balancedSampler_spec (shufP shufN shufAll : List Row → List Row)
    (hP : ∀ l, List.Perm (shufP l) l) (hN : ∀ l, List.Perm (shufN l) l)
    (hA : ∀ l, List.Perm (shufAll l) l)
    (pos neg : List Row) (target : ℕ)
    (hpos : ∀ r ∈ pos, r.success = 1) (hneg : ∀ r ∈ neg, r.success = 0) :
    (pos = [] ∨ neg = [] →
      balancedSample shufP shufN shufAll pos neg target = none) ∧
    (0 < min (min pos.length neg.length) target →
      ∃ out, balancedSample shufP shufN shufAll pos neg target = some out ∧
        out.length = 2 * min (min pos.length neg.length) target ∧
        out.countP (fun r => r.success == 1) =
          min (min pos.length neg.length) target ∧
        out.countP (fun r => r.success == 0) =
          min (min pos.length neg.length) target) := by
  set k := min (min pos.length neg.length) target with hk
  have hred : balancedSample shufP shufN shufAll pos neg target =
      if k = 0 then none
      else some (shufAll ((shufP pos).take k ++ (shufN neg).take k)) := rfl
  constructor
  · intro h
    have hk0 : k = 0 := by
      rcases h with h | h <;> simp [hk, h]
    rw [hred, if_pos hk0]
  · intro hkpos
    have hkne : ¬ k = 0 := Nat.pos_iff_ne_zero.mp hkpos
    rw [hred, if_neg hkne]
    refine ⟨shufAll ((shufP pos).take k ++ (shufN neg).take k), rfl, ?_, ?_, ?_⟩
    all_goals
      have hperm := hA ((shufP pos).take k ++ (shufN neg).take k)
      have hlp : (shufP pos).length = pos.length := (hP pos).length_eq
      have hln : (shufN neg).length = neg.length := (hN neg).length_eq
      have hkp : k ≤ pos.length := by omega
      have hkn : k ≤ neg.length := by omega
      have hmemP : ∀ r ∈ (shufP pos).take k, r.success = 1 := fun r hr =>
        hpos r ((hP pos).mem_iff.mp (List.take_subset _ _ hr))
      have hmemN : ∀ r ∈ (shufN neg).take k, r.success = 0 := fun r hr =>
        hneg r ((hN neg).mem_iff.mp (List.take_subset _ _ hr))
    · rw [hperm.length_eq, List.length_append, List.length_take,
        List.length_take, hlp, hln]
      omega
    · rw [hperm.countP_eq, List.countP_append]
      have e1 : ((shufP pos).take k).countP (fun r => r.success == 1) =
          ((shufP pos).take k).length :=
        List.countP_eq_length.mpr (fun r hr => by simp [hmemP r hr])
      have e2 : ((shufN neg).take k).countP (fun r => r.success == 1) = 0 :=
        List.countP_eq_zero.mpr (fun r hr => by simp [hmemN r hr])
      rw [e1, e2, List.length_take, hlp]
      omega
    · rw [hperm.countP_eq, List.countP_append]
      have e1 : ((shufP pos).take k).countP (fun r => r.success == 0) = 0 :=
        List.countP_eq_zero.mpr (fun r hr => by simp [hmemP r hr])
      have e2 : ((shufN neg).take k).countP (fun r => r.success == 0) =
          ((shufN neg).take k).length :=
        List.countP_eq_length.mpr (fun r hr => by simp [hmemN r hr])
      rw [e1, e2, List.length_take, hln]
      omega

/-- Witness for C3, the spec scenario: 120 positives, 80 negatives,
target 150 yield 160 balanced records, 80 per class (identity as the
shuffle outcome). -/
theorem balancedSampler_spec_witness :
    ∃ out, balancedSample id id id (List.replicate 120 rowP)
        (List.replicate 80 rowN) 150 = some out ∧
      out.length = 160 ∧
      out.countP (fun r => r.success == 1) = 80 ∧
      out.countP (fun r => r.success == 0) = 80 := by
  have h := (balancedSampler_spec id id id
    (fun l => List.Perm.refl l) (fun l => List.Perm.refl l)
    (fun l => List.Perm.refl l)
    (List.replicate 120 rowP) (List.replicate 80 rowN) 150
    (fun r hr => by rw [List.eq_of_mem_replicate hr]; rfl)
    (fun r hr => by rw [List.eq_of_mem_replicate hr]; rfl)).2
  have hmin : min (min (List.replicate 120 rowP).length
      (List.replicate 80 rowN).length) 150 = 80 := by
    rw [List.length_replicate, List.length_replicate]
    omega
  obtain ⟨out, h1, h2, h3, h4⟩ := h (by rw [hmin]; norm_num)
  rw [hmin] at h2 h3 h4
  exact ⟨out, h1, by omega, h3, h4⟩
